import Mathlib

/-!
# find_old_dns_pod: a shallow embedding of `main.go`

The program lists the pods of a cluster, keeps the running `hostNetwork` pods
grouped by namespace, runs `cat /etc/resolv.conf` in each of them and reports,
per namespace, the pods whose output still names one of the old DNS servers.

Modelling conventions:

* a Go `string` is a Lean `String`; `strings.Contains` is substring containment
  on the character sequence, which on UTF-8 text is containment of the byte
  sequence;
* a Go `error` is an `Option String` (`none` is `nil`, `some msg` carries
  `err.Error()`);
* a Go `map[string]V` is an association list with pairwise distinct keys; the
  order of the entries stands for one of the iteration orders Go may choose and
  no statement below depends on it except through `index`, `keys` and `len`;
* a `*K8s` is an `Option K8s` (`none` is the nil pointer);
* the values that `for res := range results` binds to `res`, in arrival order,
  are a `List result`;
* what a function does to the outside world is a `Run`: the log entries and
  table it writes, and the way control leaves it.
-/

namespace FindOldDnsPod

/-! ## Go maps with string keys -/

/-- A Go `map[string]V`. -/
abbrev GoMap (V : Type) := List (String × V)

namespace GoMap

/-- The expression `m[k]` for a map of slices: the stored slice, or the nil
slice when `k` is not a key. -/
def index {α : Type} : GoMap (List α) → String → List α
  | [], _ => []
  | (k', v) :: rest, k => if k' = k then v else index rest k

/-- The statement `m[k] = v`: overwrite the entry of `k`, or add one. -/
def assign {V : Type} : GoMap V → String → V → GoMap V
  | [], k, v => [(k, v)]
  | (k', v') :: rest, k, v =>
      if k' = k then (k, v) :: rest else (k', v') :: assign rest k v

/-- The statement `m[k] = append(m[k], x)`. -/
def appendAt {α : Type} (m : GoMap (List α)) (k : String) (x : α) : GoMap (List α) :=
  assign m k (index m k ++ [x])

/-- The expression `len(m)`. -/
def len {V : Type} (m : GoMap V) : Nat := m.length

/-- The keys of the map. -/
def keys {V : Type} (m : GoMap V) : List String := m.map Prod.fst

end GoMap

/-! ## Data model -/

/-- The part of `corev1.PodSpec` the program reads. -/
structure PodSpec where
  HostNetwork : Bool
deriving DecidableEq, Repr

/-- The part of `corev1.PodStatus` the program reads; `Phase` is the string
type `corev1.PodPhase`. -/
structure PodStatus where
  Phase : String
deriving DecidableEq, Repr

/-- The part of `corev1.Pod` the program reads. -/
structure Pod where
  Name : String
  Namespace : String
  Spec : PodSpec
  Status : PodStatus
deriving DecidableEq, Repr

/-- The constant `corev1.PodRunning`. -/
def PodRunning : String := "Running"

/-- The struct `result` sent on the `results` channel. -/
structure result where
  podName : String
  «namespace» : String
  stdout : String
  stderr : String
  err : Option String
deriving DecidableEq, Repr

/-- The struct `K8s`. The fields `restConfig`, `client`, `logger` and `ctx` are
handles on the outside world and carry no data of their own here. -/
structure K8s where
  hostpods : GoMap (List Pod)
deriving DecidableEq, Repr

/-- What the cluster answers to the three calls the program makes before it
starts executing commands. -/
structure Cluster where
  /-- The error of `clientcmd.BuildConfigFromFlags`, if any. -/
  BuildConfigFromFlags : Option String
  /-- The error of `kubernetes.NewForConfig`, if any. -/
  NewForConfig : Option String
  /-- The outcome of `Pods("").List`: the items, or the error. -/
  Pods : Except String (List Pod)

/-- An entry written by the logger, or the table written to standard output. -/
inductive Event where
  | info (msg : String)
  | error (msg : String)
  | fatal (msg : String)
  | table (header : List String) (rows : List (List String))
deriving DecidableEq, Repr

/-- How control leaves a function. -/
inductive Control where
  /-- The function returns to its caller. -/
  | returned
  /-- The call `os.Exit(code)`, also the one `Fatalln` makes with code 1. -/
  | exit (code : Nat)
  /-- The run-time panic of a field access through a nil pointer. -/
  | nilDereference
  /-- The call `k.CheckPods()` on a receiver with these `hostpods`. -/
  | checkPods (hostpods : GoMap (List Pod))
deriving DecidableEq, Repr

/-- The observable behaviour of a function: what it wrote, then how it ended. -/
structure Run where
  log : List Event
  control : Control
deriving DecidableEq, Repr

/-! ## Constants -/

/-- The variable `dnsServers`. -/
def dnsServers : List String := ["20.46.0.1", "20.46.1.1"]

/-! ## `strings.Contains` -/

/-- Whether `substr` occurs in `s`, both as character sequences. -/
def containsChars : List Char → List Char → Bool
  | [], substr => substr.isPrefixOf []
  | c :: cs, substr => substr.isPrefixOf (c :: cs) || containsChars cs substr

/-- The function `strings.Contains`. -/
def stringsContains (s substr : String) : Bool :=
  containsChars s.data substr.data

/-! ## `NewK8s` -/

/-- The function `NewK8s`: the pair of the pointer and the error it returns. -/
def NewK8s (c : Cluster) : Option K8s × Option String :=
  match c.BuildConfigFromFlags with
  | some err => (none, some err)
  | none =>
    match c.NewForConfig with
    | some err => (none, some err)
    | none => (some { hostpods := [] }, none)

/-! ## `getHostNetworkPods` -/

/-- The body of the loop over `pods.Items`. -/
def addHostNetworkPod (hostpods : GoMap (List Pod)) (pod : Pod) : GoMap (List Pod) :=
  if pod.Spec.HostNetwork && pod.Status.Phase == PodRunning then
    hostpods.appendAt pod.Namespace pod
  else
    hostpods

/-- The method `getHostNetworkPods`: what it logs, and the pair of the pointer
and the error it returns. -/
def getHostNetworkPods (c : Cluster) (k : K8s) : List Event × Option K8s × Option String :=
  let started := [Event.info "开始抓取hostNetwork类型的Pod,注意仅计算Running状态的Pod"]
  match c.Pods with
  | .error err => (started, none, some err)
  | .ok items =>
    (started ++ [Event.info "成功取回hostNetwork类型的Pod"],
      some { k with hostpods := items.foldl addHostNetworkPod [] }, none)

/-! ## The aggregation loop of `CheckPods` -/

/-- The condition of the second `if` of the loop body. -/
def usesOldDNS (stdout : String) : Bool :=
  stringsContains stdout (dnsServers.get ⟨0, by decide⟩) ||
    stringsContains stdout (dnsServers.get ⟨1, by decide⟩)

/-- The variables the loop `for res := range results` updates. -/
structure LoopState where
  matchingPods : GoMap (List String)
  log : List Event
deriving DecidableEq, Repr

/-- One iteration of `for res := range results`. -/
def loopBody (st : LoopState) (res : result) : LoopState :=
  match res.err with
  | some err =>
    { st with log := st.log ++ [Event.error
        ("Error executing command in pod: " ++ res.«namespace» ++ "/" ++ res.podName ++
          ", err = " ++ err ++ "\n")] }
  | none =>
    if usesOldDNS res.stdout then
      { st with matchingPods := st.matchingPods.appendAt res.«namespace» res.podName }
    else
      st

/-- The loop `for res := range results`, run until the channel is closed, on
the outcomes in the order they arrive. -/
def drain (arrivals : List result) : LoopState :=
  arrivals.foldl loopBody { matchingPods := [], log := [] }

/-- The map `matchingPods` once the channel is closed. -/
def report (arrivals : List result) : GoMap (List String) :=
  (drain arrivals).matchingPods

/-- The rows appended to the table, one per entry of `matchingPods`, in the
order of the entries; Go ranges over the map in no fixed order, so statements
speak of the rows as a set. -/
def tableRows (matchingPods : GoMap (List String)) : List (List String) :=
  matchingPods.map fun entry => [entry.1, "\n".intercalate entry.2]

/-- The method `CheckPods` from the first receive on `results` to its end, on
the outcomes in the order they arrive. -/
def CheckPods (arrivals : List result) : Run :=
  let st := drain arrivals
  if st.matchingPods.len = 0 then
    { log := st.log ++ [Event.info "未发现使用 20.46.0.1/20.46.1.1 的pod"],
      control := Control.exit 0 }
  else
    { log := st.log ++ [Event.info "仍在使用20.46.0.1/20.46.1.1的pod如下表:",
        Event.table ["Namespace", "Pods"] (tableRows st.matchingPods)],
      control := Control.returned }

/-! ## `main` -/

/-- The function `main`, up to the call of `CheckPods`. -/
def main (c : Cluster) : Run :=
  match NewK8s c with
  | (none, some _) => { log := [], control := Control.nilDereference }
  | (some _, some err) => { log := [Event.fatal err], control := Control.exit 1 }
  | (none, none) => { log := [], control := Control.nilDereference }
  | (some k, none) =>
    match getHostNetworkPods c k with
    | (log, _, some err) => { log := log ++ [Event.fatal err], control := Control.exit 1 }
    | (log, none, none) => { log := log, control := Control.nilDereference }
    | (log, some pods, none) =>
      let k := { k with hostpods := pods.hostpods }
      if k.hostpods.len = 0 then
        { log := log ++ [Event.info "未发现hostNetwork类型的Pod"], control := Control.exit 0 }
      else
        { log := log, control := Control.checkPods k.hostpods }

/-! ## Predicates used in the statements -/

/-- The outcomes that add a name to `matchingPods[ns]`. -/
def addsTo (ns : String) (r : result) : Prop :=
  r.«namespace» = ns ∧ r.err = none ∧ usesOldDNS r.stdout = true

instance (ns : String) (r : result) : Decidable (addsTo ns r) := by
  unfold addsTo
  exact inferInstance

/-- The pods the loop over `pods.Items` adds to `hostpods[ns]`. -/
def keptIn (ns : String) (pod : Pod) : Prop :=
  pod.Namespace = ns ∧ pod.Spec.HostNetwork = true ∧ pod.Status.Phase = PodRunning

instance (ns : String) (pod : Pod) : Decidable (keptIn ns pod) := by
  unfold keptIn
  exact inferInstance

/-! ## Scenarios -/

/-- Three targets of namespace `ns-a`; the second one is clean. -/
def threeTargets : List result :=
  [ { podName := "target-1", «namespace» := "ns-a", stdout := "contains 20.46.0.1",
      stderr := "", err := none },
    { podName := "target-2", «namespace» := "ns-a", stdout := "clean",
      stderr := "", err := none },
    { podName := "target-3", «namespace» := "ns-a", stdout := "contains 20.46.1.1",
      stderr := "", err := none } ]

/-- Two pods of the same name in two namespaces, both on an old DNS server. -/
def sameNameTwoNamespaces : List result :=
  [ { podName := "node-exporter", «namespace» := "monitoring",
      stdout := "nameserver 20.46.0.1", stderr := "", err := none },
    { podName := "node-exporter", «namespace» := "logging",
      stdout := "nameserver 20.46.1.1", stderr := "", err := none } ]

/-- Two targets, both failed; the first one had read an old DNS server before
the stream broke. -/
def allFailed : List result :=
  [ { podName := "target-1", «namespace» := "ns-a", stdout := "nameserver 20.46.0.1",
      stderr := "", err := some "context deadline exceeded" },
    { podName := "target-2", «namespace» := "ns-a", stdout := "",
      stderr := "", err := some "connection refused" } ]

/-- A cluster of three pods: one not on the host network, one on the host
network and running, one on the host network and pending. -/
def smallCluster : Cluster :=
  { BuildConfigFromFlags := none
    NewForConfig := none
    Pods := Except.ok
      [ { Name := "web", Namespace := "default",
          Spec := { HostNetwork := false }, Status := { Phase := "Running" } },
        { Name := "kube-proxy", Namespace := "kube-system",
          Spec := { HostNetwork := true }, Status := { Phase := "Running" } },
        { Name := "cni", Namespace := "kube-system",
          Spec := { HostNetwork := true }, Status := { Phase := "Pending" } } ] }

/-! ## Lemmas on Go maps -/

namespace GoMap

variable {α V : Type}

theorem index_assign (m : GoMap (List α)) (k k' : String) (v : List α) :
    index (assign m k v) k' = if k = k' then v else index m k' := by
  induction m with
  | nil => simp [assign, index]
  | cons e rest ih =>
    obtain ⟨k0, v0⟩ := e
    by_cases h0 : k0 = k
    · subst h0
      by_cases h1 : k0 = k' <;> simp [assign, index, h1]
    · by_cases h1 : k0 = k'
      · subst h1
        have h2 : ¬ k = k0 := fun h => h0 h.symm
        simp [assign, index, h0, h2]
      · simp [assign, index, h0, h1, ih]

theorem index_appendAt (m : GoMap (List α)) (k k' : String) (x : α) :
    index (appendAt m k x) k' = if k = k' then index m k ++ [x] else index m k' := by
  simp [appendAt, index_assign]

theorem mem_keys_assign (m : GoMap V) (k k' : String) (v : V) :
    k' ∈ keys (assign m k v) ↔ k' = k ∨ k' ∈ keys m := by
  induction m with
  | nil => simp [assign, keys]
  | cons e rest ih =>
    obtain ⟨k0, v0⟩ := e
    by_cases h0 : k0 = k
    · subst h0
      simp [assign, keys]
    · have ih' : k' ∈ List.map Prod.fst (assign rest k v) ↔
          k' = k ∨ k' ∈ List.map Prod.fst rest := ih
      simp only [assign, h0, if_false, keys, List.map_cons, List.mem_cons, ih']
      tauto

theorem mem_keys_appendAt (m : GoMap (List α)) (k k' : String) (x : α) :
    k' ∈ keys (appendAt m k x) ↔ k' = k ∨ k' ∈ keys m := by
  simp [appendAt, mem_keys_assign]

theorem mem_assign (m : GoMap V) (k : String) (v : V) (e : String × V)
    (h : e ∈ assign m k v) : e = (k, v) ∨ e ∈ m := by
  induction m with
  | nil => simpa [assign] using h
  | cons e0 rest ih =>
    obtain ⟨k0, v0⟩ := e0
    by_cases h0 : k0 = k
    · simp only [assign, h0, if_true, List.mem_cons] at h
      rcases h with h | h
      · exact Or.inl h
      · exact Or.inr (List.mem_cons_of_mem _ h)
    · simp only [assign, h0, if_false, List.mem_cons] at h
      rcases h with h | h
      · exact Or.inr (h ▸ List.mem_cons_self _ _)
      · rcases ih h with h | h
        · exact Or.inl h
        · exact Or.inr (List.mem_cons_of_mem _ h)

theorem nodup_keys_assign (m : GoMap V) (k : String) (v : V)
    (h : (keys m).Nodup) : (keys (assign m k v)).Nodup := by
  induction m with
  | nil => simp [assign, keys]
  | cons e rest ih =>
    obtain ⟨k0, v0⟩ := e
    have hk : k0 ∉ keys rest ∧ (keys rest).Nodup := by
      simpa [keys] using h
    by_cases h0 : k0 = k
    · subst h0
      simpa [assign, keys] using h
    · have h1 : k0 ∉ keys (assign rest k v) := by
        rw [mem_keys_assign]
        exact fun h => h.elim h0 hk.1
      have h2 : (keys (assign rest k v)).Nodup := ih hk.2
      simp only [assign, h0, if_false]
      exact List.nodup_cons.mpr ⟨h1, h2⟩

theorem len_eq_zero_iff (m : GoMap V) : len m = 0 ↔ ∀ k, k ∉ keys m := by
  cases m with
  | nil => simp [len, keys]
  | cons e rest =>
    simp only [len, List.length_cons, Nat.succ_ne_zero, false_iff, not_forall, not_not]
    exact ⟨e.1, by simp [keys]⟩

theorem index_of_not_mem_keys (m : GoMap (List α)) (k : String) (h : k ∉ keys m) :
    index m k = [] := by
  induction m with
  | nil => rfl
  | cons e rest ih =>
    obtain ⟨k0, v0⟩ := e
    have hk : ¬ k = k0 ∧ k ∉ keys rest := by
      simpa [keys] using h
    have h0 : ¬ k0 = k := fun h => hk.1 h.symm
    simp [index, h0, ih hk.2]

theorem index_of_mem (m : GoMap (List α)) (k : String) (v : List α)
    (hn : (keys m).Nodup) (h : (k, v) ∈ m) : index m k = v := by
  induction m with
  | nil => simp at h
  | cons e rest ih =>
    obtain ⟨k0, v0⟩ := e
    have hk : k0 ∉ keys rest ∧ (keys rest).Nodup := by
      simpa [keys] using hn
    rcases List.mem_cons.mp h with h | h
    · cases h
      simp [index]
    · have hin : k ∈ keys rest := List.mem_map.mpr ⟨(k, v), h, rfl⟩
      have h0 : ¬ k0 = k := fun h' => hk.1 (h' ▸ hin)
      simp [index, h0, ih hk.2 h]

end GoMap

/-! ## Lemmas on `strings.Contains` and the old-DNS test -/

theorem containsChars_iff (s substr : List Char) :
    containsChars s substr = true ↔ substr <:+: s := by
  induction s with
  | nil =>
    cases substr <;> simp [containsChars, List.isPrefixOf]
  | cons c cs ih =>
    simp only [containsChars, Bool.or_eq_true, ih, List.isPrefixOf_iff_prefix,
      List.infix_cons_iff]

theorem usesOldDNS_iff (stdout : String) :
    usesOldDNS stdout = true ↔ ∃ a ∈ dnsServers, stringsContains stdout a = true := by
  simp [usesOldDNS, dnsServers]

/-! ## Lemmas on the aggregation loop -/

theorem loopBody_failed (st : LoopState) (r : result) (h : r.err ≠ none) :
    (loopBody st r).matchingPods = st.matchingPods := by
  unfold loopBody
  cases he : r.err with
  | none => exact absurd he h
  | some e => rfl

theorem loopBody_index (st : LoopState) (r : result) (ns : String) :
    (loopBody st r).matchingPods.index ns =
      st.matchingPods.index ns ++ if addsTo ns r then [r.podName] else [] := by
  obtain ⟨name, rns, out, errOut, err⟩ := r
  unfold loopBody addsTo
  cases err with
  | some e => simp
  | none =>
    by_cases hu : usesOldDNS out = true
    · by_cases hn : rns = ns
      · subst hn
        simp [hu, GoMap.index_appendAt]
      · simp [hu, hn, GoMap.index_appendAt]
    · simp [hu]

theorem loopBody_keys (st : LoopState) (r : result) (ns : String) :
    ns ∈ (loopBody st r).matchingPods.keys ↔
      ns ∈ st.matchingPods.keys ∨ addsTo ns r := by
  obtain ⟨name, rns, out, errOut, err⟩ := r
  unfold loopBody addsTo
  cases err with
  | some e => simp
  | none =>
    by_cases hu : usesOldDNS out = true
    · simp only [hu, if_true, GoMap.mem_keys_appendAt]
      constructor
      · rintro (h | h)
        · exact Or.inr ⟨h.symm, trivial, trivial⟩
        · exact Or.inl h
      · rintro (h | h)
        · exact Or.inr h
        · exact Or.inl h.1.symm
    · simp [hu]

theorem foldl_loopBody_index (rs : List result) (st : LoopState) (ns : String) :
    (rs.foldl loopBody st).matchingPods.index ns =
      st.matchingPods.index ns ++
        (rs.filter fun r => decide (addsTo ns r)).map (fun r => r.podName) := by
  induction rs generalizing st with
  | nil => simp
  | cons r rs ih =>
    rw [List.foldl_cons, ih, loopBody_index]
    by_cases h : addsTo ns r <;> simp [h, List.filter_cons]

theorem foldl_loopBody_keys (rs : List result) (st : LoopState) (ns : String) :
    ns ∈ (rs.foldl loopBody st).matchingPods.keys ↔
      ns ∈ st.matchingPods.keys ∨ ∃ r ∈ rs, addsTo ns r := by
  induction rs generalizing st with
  | nil => simp
  | cons r rs ih =>
    rw [List.foldl_cons, ih, loopBody_keys]
    simp only [List.mem_cons, exists_eq_or_imp, or_assoc]

theorem foldl_loopBody_matchingPods (rs : List result) (st st' : LoopState)
    (h : st.matchingPods = st'.matchingPods) :
    (rs.foldl loopBody st).matchingPods =
      ((rs.filter fun r => decide (r.err = none)).foldl loopBody st').matchingPods := by
  induction rs generalizing st st' with
  | nil => simpa using h
  | cons r rs ih =>
    by_cases he : r.err = none
    · rw [List.filter_cons_of_pos (by simpa using he), List.foldl_cons, List.foldl_cons]
      apply ih
      unfold loopBody
      simp only [he]
      split <;> simp [h]
    · rw [List.filter_cons_of_neg (by simpa using he), List.foldl_cons]
      apply ih
      rw [loopBody_failed st r he, h]

theorem foldl_loopBody_log (rs : List result) (st : LoopState) (e : Event)
    (h : e ∈ (rs.foldl loopBody st).log) : e ∈ st.log ∨ ∃ msg, e = Event.error msg := by
  induction rs generalizing st with
  | nil => exact Or.inl h
  | cons r rs ih =>
    rw [List.foldl_cons] at h
    rcases ih _ h with h | h
    · unfold loopBody at h
      cases he : r.err with
      | some err =>
        simp only [he, List.mem_append, List.mem_singleton] at h
        rcases h with h | h
        · exact Or.inl h
        · exact Or.inr ⟨_, h⟩
      | none =>
        simp only [he] at h
        split at h
        · exact Or.inl h
        · exact Or.inl h
    · exact Or.inr h

theorem report_index (rs : List result) (ns : String) :
    (report rs).index ns =
      (rs.filter fun r => decide (addsTo ns r)).map (fun r => r.podName) := by
  simp [report, drain, foldl_loopBody_index, GoMap.index]

theorem report_keys (rs : List result) (ns : String) :
    ns ∈ (report rs).keys ↔ ∃ r ∈ rs, addsTo ns r := by
  rw [report, drain, foldl_loopBody_keys]
  simp [GoMap.keys]

theorem report_len (rs : List result) :
    (report rs).len = 0 ↔ ¬ ∃ r ∈ rs, r.err = none ∧ usesOldDNS r.stdout = true := by
  rw [GoMap.len_eq_zero_iff]
  constructor
  · rintro h ⟨r, hr, he, hu⟩
    exact h r.«namespace» ((report_keys rs _).mpr ⟨r, hr, rfl, he, hu⟩)
  · intro h k hk
    obtain ⟨r, hr, -, he, hu⟩ := (report_keys rs k).mp hk
    exact h ⟨r, hr, he, hu⟩

/-! ## Lemmas on `getHostNetworkPods` -/

theorem addHostNetworkPod_index (m : GoMap (List Pod)) (pod : Pod) (ns : String) :
    (addHostNetworkPod m pod).index ns =
      m.index ns ++ if keptIn ns pod then [pod] else [] := by
  unfold addHostNetworkPod keptIn
  by_cases hh : pod.Spec.HostNetwork = true
  · by_cases hp : pod.Status.Phase = PodRunning
    · by_cases hn : pod.Namespace = ns
      · subst hn
        simp [hh, hp, GoMap.index_appendAt]
      · simp [hh, hp, hn, GoMap.index_appendAt]
    · simp [hh, hp]
  · simp [hh]

theorem addHostNetworkPod_keys (m : GoMap (List Pod)) (pod : Pod) (ns : String) :
    ns ∈ (addHostNetworkPod m pod).keys ↔ ns ∈ m.keys ∨ keptIn ns pod := by
  unfold addHostNetworkPod keptIn
  by_cases hh : pod.Spec.HostNetwork = true
  · by_cases hp : pod.Status.Phase = PodRunning
    · simp only [hh, hp, beq_self_eq_true, Bool.and_self, if_true, GoMap.mem_keys_appendAt]
      constructor
      · rintro (h | h)
        · exact Or.inr ⟨h.symm, trivial, trivial⟩
        · exact Or.inl h
      · rintro (h | h)
        · exact Or.inr h
        · exact Or.inl h.1.symm
    · simp [hh, hp]
  · simp [hh]

theorem addHostNetworkPod_nodup (m : GoMap (List Pod)) (pod : Pod)
    (h : m.keys.Nodup) : (addHostNetworkPod m pod).keys.Nodup := by
  unfold addHostNetworkPod
  split
  · exact GoMap.nodup_keys_assign _ _ _ h
  · exact h

theorem addHostNetworkPod_nonempty (m : GoMap (List Pod)) (pod : Pod)
    (h : ∀ e ∈ m, e.2 ≠ []) : ∀ e ∈ addHostNetworkPod m pod, e.2 ≠ [] := by
  unfold addHostNetworkPod
  split
  · intro e he
    rcases GoMap.mem_assign _ _ _ _ he with he | he
    · rw [he]
      simp
    · exact h e he
  · exact h

theorem foldl_addHostNetworkPod_index (items : List Pod) (m : GoMap (List Pod))
    (ns : String) :
    (items.foldl addHostNetworkPod m).index ns =
      m.index ns ++ items.filter fun pod => decide (keptIn ns pod) := by
  induction items generalizing m with
  | nil => simp
  | cons pod items ih =>
    rw [List.foldl_cons, ih, addHostNetworkPod_index]
    by_cases h : keptIn ns pod <;> simp [h, List.filter_cons]

theorem foldl_addHostNetworkPod_keys (items : List Pod) (m : GoMap (List Pod))
    (ns : String) :
    ns ∈ (items.foldl addHostNetworkPod m).keys ↔
      ns ∈ m.keys ∨ ∃ pod ∈ items, keptIn ns pod := by
  induction items generalizing m with
  | nil => simp
  | cons pod items ih =>
    rw [List.foldl_cons, ih, addHostNetworkPod_keys]
    simp only [List.mem_cons, exists_eq_or_imp, or_assoc]

theorem foldl_addHostNetworkPod_nodup (items : List Pod) (m : GoMap (List Pod))
    (h : m.keys.Nodup) : (items.foldl addHostNetworkPod m).keys.Nodup := by
  induction items generalizing m with
  | nil => exact h
  | cons pod items ih =>
    rw [List.foldl_cons]
    exact ih _ (addHostNetworkPod_nodup m pod h)

theorem foldl_addHostNetworkPod_nonempty (items : List Pod) (m : GoMap (List Pod))
    (h : ∀ e ∈ m, e.2 ≠ []) : ∀ e ∈ items.foldl addHostNetworkPod m, e.2 ≠ [] := by
  induction items generalizing m with
  | nil => exact h
  | cons pod items ih =>
    rw [List.foldl_cons]
    exact ih _ (addHostNetworkPod_nonempty m pod h)

theorem foldl_addHostNetworkPod_len (items : List Pod) :
    (items.foldl addHostNetworkPod []).len = 0 ↔
      ∀ pod ∈ items, ¬ (pod.Spec.HostNetwork = true ∧ pod.Status.Phase = PodRunning) := by
  rw [GoMap.len_eq_zero_iff]
  constructor
  · intro h pod hp hq
    exact h pod.Namespace
      ((foldl_addHostNetworkPod_keys items [] _).mpr (Or.inr ⟨pod, hp, rfl, hq⟩))
  · intro h ns hns
    rcases (foldl_addHostNetworkPod_keys items [] ns).mp hns with hk | ⟨pod, hp, -, hq⟩
    · simp [GoMap.keys] at hk
    · exact h pod hp hq

theorem usesOldDNS_filter (rs : List result) (ns : String) :
    (rs.filter fun r => decide (r.«namespace» = ns ∧ r.err = none ∧
        ∃ a ∈ dnsServers, stringsContains r.stdout a = true)) =
      rs.filter fun r => decide (addsTo ns r) := by
  apply List.filter_congr
  intro r _
  simp only [addsTo, usesOldDNS_iff]

theorem CheckPods_control (rs : List result) :
    (CheckPods rs).control =
      if (report rs).len = 0 then Control.exit 0 else Control.returned := by
  unfold CheckPods report
  by_cases h : (drain rs).matchingPods.len = 0 <;> simp [h]

theorem CheckPods_table (rs : List result) (header : List String)
    (rows : List (List String)) :
    Event.table header rows ∈ (CheckPods rs).log ↔
      (report rs).len ≠ 0 ∧ header = ["Namespace", "Pods"] ∧
        rows = tableRows (report rs) := by
  have hlog : Event.table header rows ∉ (drain rs).log := by
    intro h
    rcases foldl_loopBody_log rs _ _ h with h | ⟨msg, h⟩
    · simp at h
    · cases h
  unfold CheckPods report
  by_cases h : (drain rs).matchingPods.len = 0
  · simp [h, hlog]
  · simp [h, hlog]

theorem loopBody_nodup (st : LoopState) (r : result)
    (h : st.matchingPods.keys.Nodup) : (loopBody st r).matchingPods.keys.Nodup := by
  obtain ⟨name, rns, out, errOut, err⟩ := r
  unfold loopBody
  cases err with
  | some e => exact h
  | none =>
    by_cases hu : usesOldDNS out = true
    · simp only [hu, if_true]
      exact GoMap.nodup_keys_assign _ _ _ h
    · simp only [hu]
      exact h

theorem foldl_loopBody_nodup (rs : List result) (st : LoopState)
    (h : st.matchingPods.keys.Nodup) :
    (rs.foldl loopBody st).matchingPods.keys.Nodup := by
  induction rs generalizing st with
  | nil => exact h
  | cons r rs ih =>
    rw [List.foldl_cons]
    exact ih _ (loopBody_nodup st r h)

theorem report_nodup (rs : List result) : (report rs).keys.Nodup := by
  unfold report drain
  exact foldl_loopBody_nodup rs _ (by simp [GoMap.keys])

theorem mem_tableRows (m : GoMap (List String)) (hn : m.keys.Nodup)
    (row : List String) :
    row ∈ tableRows m ↔
      ∃ ns ∈ m.keys, row = [ns, "\n".intercalate (m.index ns)] := by
  unfold tableRows
  constructor
  · intro h
    obtain ⟨entry, hentry, hrow⟩ := List.mem_map.mp h
    refine ⟨entry.1, List.mem_map.mpr ⟨entry, hentry, rfl⟩, ?_⟩
    rw [GoMap.index_of_mem m entry.1 entry.2 hn hentry]
    exact hrow.symm
  · rintro ⟨ns, hns, hrow⟩
    obtain ⟨entry, hentry, hkey⟩ := List.mem_map.mp hns
    refine List.mem_map.mpr ⟨entry, hentry, ?_⟩
    rw [hrow, ← hkey, GoMap.index_of_mem m entry.1 entry.2 hn hentry]

theorem CheckPods_info (rs : List result) :
    Event.info "未发现使用 20.46.0.1/20.46.1.1 的pod" ∈ (CheckPods rs).log ↔
      (report rs).len = 0 := by
  have hlog : Event.info "未发现使用 20.46.0.1/20.46.1.1 的pod" ∉ (drain rs).log := by
    intro h
    rcases foldl_loopBody_log rs _ _ h with h | ⟨msg, h⟩
    · simp at h
    · cases h
  unfold CheckPods report
  by_cases h : (drain rs).matchingPods.len = 0
  · simp [h]
  · simp only [h, if_false, List.mem_append, hlog, false_or, List.mem_cons,
      List.mem_singleton, iff_false, not_or]
    refine ⟨?_, ?_, ?_⟩
    · decide
    · intro h'
      cases h'
    · simp

theorem CheckPods_last (rs : List result) :
    (CheckPods rs).log.getLast? =
      if (report rs).len = 0 then
        some (Event.info "未发现使用 20.46.0.1/20.46.1.1 的pod")
      else
        some (Event.table ["Namespace", "Pods"] (tableRows (report rs))) := by
  unfold CheckPods report
  by_cases h : (drain rs).matchingPods.len = 0
  · simp [h]
  · simp [h, List.getLast?_append]

/-! ## The claims -/

/-- Claim C1: the aggregation loop receives one outcome per pod of `hostpods`,
so the outcomes of a sequence carry pairwise distinct pairs of namespace and
pod name; for every such sequence and every outcome of it without a failure
cause, the pod name is in the report bucket of the outcome's namespace if and
only if its stdout contains one of the strings of `dnsServers`. -/
theorem report_mem_iff (rs : List result)
    (hdistinct : (rs.map fun r => (r.«namespace», r.podName)).Nodup)
    (r : result) (hr : r ∈ rs) (herr : r.err = none) :
    r.podName ∈ (report rs).index r.«namespace» ↔
      ∃ a ∈ dnsServers, stringsContains r.stdout a = true := by
  rw [report_index, ← usesOldDNS_iff]
  constructor
  · intro h
    obtain ⟨other, hother, hname⟩ := List.mem_map.mp h
    obtain ⟨hmem, hadds⟩ := List.mem_filter.mp hother
    have hadds2 : addsTo r.«namespace» other := of_decide_eq_true hadds
    have hpair : (other.«namespace», other.podName) = (r.«namespace», r.podName) := by
      rw [hadds2.1, hname]
    have heq : other = r := List.inj_on_of_nodup_map hdistinct hmem hr hpair
    rw [← heq]
    exact hadds2.2.2
  · intro h
    refine List.mem_map.mpr ⟨r, List.mem_filter.mpr ⟨hr, ?_⟩, rfl⟩
    exact decide_eq_true (⟨rfl, herr, h⟩ : addsTo r.«namespace» r)

/-- Claim C1, the scenario of three targets in `ns-a`: `target-1` and
`target-3` are in the bucket and the clean `target-2` is not, and the report is
the single bucket `ns-a` holding `target-1` and `target-3`. -/
theorem report_mem_iff_witness :
    (threeTargets.map fun r => (r.«namespace», r.podName)).Nodup ∧
    (∀ r ∈ threeTargets, r.err = none) ∧
    ("target-1" ∈ (report threeTargets).index "ns-a" ↔
      ∃ a ∈ dnsServers, stringsContains "contains 20.46.0.1" a = true) ∧
    ("target-2" ∈ (report threeTargets).index "ns-a" ↔
      ∃ a ∈ dnsServers, stringsContains "clean" a = true) ∧
    ("target-3" ∈ (report threeTargets).index "ns-a" ↔
      ∃ a ∈ dnsServers, stringsContains "contains 20.46.1.1" a = true) ∧
    (¬ ∃ a ∈ dnsServers, stringsContains "clean" a = true) ∧
    report threeTargets = [("ns-a", ["target-1", "target-3"])] :=
  ⟨by decide, by decide,
    report_mem_iff threeTargets (by decide) (threeTargets.get ⟨0, by decide⟩)
      (by decide) (by decide),
    report_mem_iff threeTargets (by decide) (threeTargets.get ⟨1, by decide⟩)
      (by decide) (by decide),
    report_mem_iff threeTargets (by decide) (threeTargets.get ⟨2, by decide⟩)
      (by decide) (by decide),
    by decide, by decide⟩

/-- Claim C2: the report built from a sequence of outcomes is the report built
from the sequence without its failed outcomes, whatever their stdout holds. -/
theorem report_ignores_failed (rs : List result) :
    report rs = report (rs.filter fun r => decide (r.err = none)) := by
  unfold report drain
  exact foldl_loopBody_matchingPods rs _ _ rfl

/-- Claim C5: the bucket of `ns` is, in arrival order, the pod names of the
outcomes of namespace `ns` without a failure cause whose stdout contains one
of the strings of `dnsServers`. -/
theorem report_bucket_arrival_order (rs : List result) (ns : String) :
    (report rs).index ns =
      (rs.filter fun r => decide (r.«namespace» = ns ∧ r.err = none ∧
        ∃ a ∈ dnsServers, stringsContains r.stdout a = true)).map
        (fun r => r.podName) := by
  rw [usesOldDNS_filter, report_index]

/-- Claim C6, as stated, fails: two pods named `node-exporter`, one in
`monitoring` and one in `logging`, both on an old DNS server, put the name in
two buckets. -/
theorem report_name_in_two_buckets :
    "node-exporter" ∈ (report sameNameTwoNamespaces).index "monitoring" ∧
      "node-exporter" ∈ (report sameNameTwoNamespaces).index "logging" ∧
      "monitoring" ≠ "logging" := by
  decide

/-- Claim C6, amended: every pod name is in at most one bucket of the report
exactly when no two outcomes of the sequence without a failure cause, whose
stdout names an old DNS server, carry the same pod name in two namespaces. -/
theorem report_one_bucket_iff (rs : List result) :
    (∀ name ns₁ ns₂, name ∈ (report rs).index ns₁ →
        name ∈ (report rs).index ns₂ → ns₁ = ns₂) ↔
      ∀ r₁ ∈ rs, ∀ r₂ ∈ rs,
        r₁.err = none → usesOldDNS r₁.stdout = true →
        r₂.err = none → usesOldDNS r₂.stdout = true →
        r₁.podName = r₂.podName → r₁.«namespace» = r₂.«namespace» := by
  have key : ∀ name ns, name ∈ (report rs).index ns ↔
      ∃ r ∈ rs, addsTo ns r ∧ r.podName = name := by
    intro name ns
    rw [report_index]
    simp only [List.mem_map, List.mem_filter, decide_eq_true_eq, and_assoc]
  constructor
  · intro h r₁ h₁ r₂ h₂ e₁ u₁ e₂ u₂ hname
    exact h r₁.podName _ _ ((key _ _).mpr ⟨r₁, h₁, ⟨rfl, e₁, u₁⟩, rfl⟩)
      ((key _ _).mpr ⟨r₂, h₂, ⟨rfl, e₂, u₂⟩, hname.symm⟩)
  · intro h name ns₁ ns₂ m₁ m₂
    obtain ⟨r₁, h₁, a₁, n₁⟩ := (key _ _).mp m₁
    obtain ⟨r₂, h₂, a₂, n₂⟩ := (key _ _).mp m₂
    have := h r₁ h₁ r₂ h₂ a₁.2.1 a₁.2.2 a₂.2.1 a₂.2.2 (n₁.trans n₂.symm)
    rw [← a₁.1, ← a₂.1]
    exact this

/-- Claim C4: when the cluster client is built and the cluster returns a list
of pods, then, if no pod of the list is both `hostNetwork` and `Running`,
`getHostNetworkPods` yields the empty map and `main` logs that no such pod was
found and exits with status 0 without calling `CheckPods`; and if some pod is,
the map is not empty and `main` calls `CheckPods` on it. -/
theorem main_zero_targets (c : Cluster) (k : K8s) (items : List Pod)
    (hcfg : c.BuildConfigFromFlags = none) (hcli : c.NewForConfig = none)
    (hlist : c.Pods = Except.ok items) :
    ((∀ pod ∈ items, ¬ (pod.Spec.HostNetwork = true ∧ pod.Status.Phase = PodRunning)) →
      (getHostNetworkPods c k).2 = (some { hostpods := [] }, none) ∧
      main c =
        { log := [Event.info "开始抓取hostNetwork类型的Pod,注意仅计算Running状态的Pod",
                  Event.info "成功取回hostNetwork类型的Pod",
                  Event.info "未发现hostNetwork类型的Pod"],
          control := Control.exit 0 }) ∧
    ((∃ pod ∈ items, pod.Spec.HostNetwork = true ∧ pod.Status.Phase = PodRunning) →
      ∃ hostpods : GoMap (List Pod),
        (getHostNetworkPods c k).2 = (some { hostpods := hostpods }, none) ∧
        hostpods.len ≠ 0 ∧
        main c =
          { log := [Event.info "开始抓取hostNetwork类型的Pod,注意仅计算Running状态的Pod",
                    Event.info "成功取回hostNetwork类型的Pod"],
            control := Control.checkPods hostpods }) := by
  obtain ⟨cfg, cli, pods⟩ := c
  simp only at hcfg hcli hlist
  subst hcfg hcli hlist
  constructor
  · intro h
    have hlen := (foldl_addHostNetworkPod_len items).mpr h
    have hnil : items.foldl addHostNetworkPod [] = [] := List.length_eq_zero.mp hlen
    simp [main, NewK8s, getHostNetworkPods, hnil, GoMap.len]
  · rintro ⟨pod, hp, hq⟩
    have hlen : (items.foldl addHostNetworkPod []).len ≠ 0 := by
      intro h0
      exact (foldl_addHostNetworkPod_len items).mp h0 pod hp hq
    refine ⟨items.foldl addHostNetworkPod [], ?_, hlen, ?_⟩
    · simp [getHostNetworkPods]
    · simp [main, NewK8s, getHostNetworkPods, hlen]

/-- Claim C4 on a cluster of three pods, one of them on the host network and
running: `main` calls `CheckPods` on the map holding that pod. -/
theorem main_zero_targets_witness :
    (smallCluster.BuildConfigFromFlags = none ∧ smallCluster.NewForConfig = none ∧
      ∃ items, smallCluster.Pods = Except.ok items ∧
        ∃ pod ∈ items, pod.Spec.HostNetwork = true ∧ pod.Status.Phase = PodRunning) ∧
    (main smallCluster).control = Control.checkPods
      [("kube-system",
        [{ Name := "kube-proxy", Namespace := "kube-system",
           Spec := { HostNetwork := true }, Status := { Phase := "Running" } }])] := by
  refine ⟨⟨rfl, rfl, _, rfl, _, List.mem_cons_of_mem _ (List.mem_cons_self _ _), rfl, rfl⟩, ?_⟩
  obtain ⟨hostpods, hget, -, hmain⟩ :=
    (main_zero_targets smallCluster { hostpods := [] } _ rfl rfl rfl).2
      ⟨_, List.mem_cons_of_mem _ (List.mem_cons_self _ _), rfl, rfl⟩
  rw [hmain]
  have h := congrArg (fun p => p.1.map K8s.hostpods) hget
  simp only [Option.map_some'] at h
  rw [← Option.some.inj h]
  decide

/-- Claim C7 fails on the code: when `BuildConfigFromFlags` or `NewForConfig`
returns an error, `NewK8s` returns the nil pointer, and `main` reads
`k.logger` through it: the process ends in a nil-pointer panic and no fatal
entry is logged. -/
theorem main_client_error_panics (msg : String) (cli : Option String)
    (pods : Except String (List Pod)) :
    main { BuildConfigFromFlags := some msg, NewForConfig := cli, Pods := pods } =
        { log := [], control := Control.nilDereference } ∧
      main { BuildConfigFromFlags := none, NewForConfig := some msg, Pods := pods } =
        { log := [], control := Control.nilDereference } := by
  constructor <;> simp [main, NewK8s]

/-- Claim C8, as stated, fails: when both outcomes carry a failure cause,
`CheckPods` logs the two errors and that no pod was found, and exits with
status 0; no table is rendered. -/
theorem CheckPods_all_failed_exits :
    (∀ r ∈ allFailed, r.err ≠ none) ∧
    CheckPods allFailed =
      { log := [Event.error
                  "Error executing command in pod: ns-a/target-1, err = context deadline exceeded\n",
                Event.error
                  "Error executing command in pod: ns-a/target-2, err = connection refused\n",
                Event.info "未发现使用 20.46.0.1/20.46.1.1 的pod"],
        control := Control.exit 0 } := by
  decide

/-- Claim C8, amended: for every sequence of outcomes `CheckPods` does not
crash: it either returns or exits with status 0. It reaches the table-rendering
step exactly when some outcome without a failure cause names an old DNS
server, that is when the report is not empty, and the table then holds one row
per namespace key of the report, the namespace and the newline-joined bucket,
in some order. Otherwise, in particular when every outcome carries a failure
cause, it logs that no matching pod was found as its last entry, exits with
status 0 and renders no table. -/
theorem CheckPods_renders_iff (rs : List result) :
    ((CheckPods rs).control = Control.returned ∨
      (CheckPods rs).control = Control.exit 0) ∧
    ((CheckPods rs).control = Control.returned ↔
      ∃ r ∈ rs, r.err = none ∧ usesOldDNS r.stdout = true) ∧
    ((CheckPods rs).control = Control.exit 0 ↔
      ¬ ∃ r ∈ rs, r.err = none ∧ usesOldDNS r.stdout = true) ∧
    ((∃ header rows, Event.table header rows ∈ (CheckPods rs).log) ↔
      ∃ r ∈ rs, r.err = none ∧ usesOldDNS r.stdout = true) ∧
    (∀ header rows, Event.table header rows ∈ (CheckPods rs).log →
      header = ["Namespace", "Pods"] ∧
      rows.length = (report rs).len ∧
      ∀ row, row ∈ rows ↔
        ∃ ns ∈ (report rs).keys, row = [ns, "\n".intercalate ((report rs).index ns)]) ∧
    (Event.info "未发现使用 20.46.0.1/20.46.1.1 的pod" ∈ (CheckPods rs).log ↔
      ¬ ∃ r ∈ rs, r.err = none ∧ usesOldDNS r.stdout = true) ∧
    ((¬ ∃ r ∈ rs, r.err = none ∧ usesOldDNS r.stdout = true) →
      (CheckPods rs).log.getLast? =
        some (Event.info "未发现使用 20.46.0.1/20.46.1.1 的pod")) ∧
    ((∀ r ∈ rs, r.err ≠ none) →
      (CheckPods rs).control = Control.exit 0 ∧
      (CheckPods rs).log.getLast? =
        some (Event.info "未发现使用 20.46.0.1/20.46.1.1 的pod") ∧
      ∀ header rows, Event.table header rows ∉ (CheckPods rs).log) := by
  have hlen := report_len rs
  have hctl := CheckPods_control rs
  have htab := CheckPods_table rs
  have hinfo := CheckPods_info rs
  have hlast := CheckPods_last rs
  have hrows : ∀ header rows, Event.table header rows ∈ (CheckPods rs).log →
      header = ["Namespace", "Pods"] ∧
      rows.length = (report rs).len ∧
      ∀ row, row ∈ rows ↔
        ∃ ns ∈ (report rs).keys,
          row = [ns, "\n".intercalate ((report rs).index ns)] := by
    intro header rows hmem
    obtain ⟨-, hheader, hrows⟩ := (htab header rows).mp hmem
    refine ⟨hheader, ?_, ?_⟩
    · rw [hrows]
      simp [tableRows, GoMap.len]
    · intro row
      rw [hrows]
      exact mem_tableRows _ (report_nodup rs) row
  by_cases h : (report rs).len = 0
  · have hno : ¬ ∃ r ∈ rs, r.err = none ∧ usesOldDNS r.stdout = true := hlen.mp h
    rw [if_pos h] at hctl hlast
    have hnotab : ∀ header rows, Event.table header rows ∉ (CheckPods rs).log :=
      fun header rows hmem => ((htab header rows).mp hmem).1 h
    refine ⟨Or.inr hctl, ?_, ?_, ?_, hrows, ?_, fun _ => hlast, fun _ => ⟨hctl, hlast, hnotab⟩⟩
    · simp [hctl, hno]
    · exact ⟨fun _ => hno, fun _ => hctl⟩
    · exact ⟨fun ⟨header, rows, hmem⟩ => absurd hmem (hnotab header rows),
        fun hyes => absurd hyes hno⟩
    · exact ⟨fun _ => hno, fun _ => hinfo.mpr h⟩
  · have hyes : ∃ r ∈ rs, r.err = none ∧ usesOldDNS r.stdout = true :=
      not_not.mp (fun hn => h (hlen.mpr hn))
    rw [if_neg h] at hctl
    refine ⟨Or.inl hctl, ?_, ?_, ?_, hrows, ?_, fun hno => absurd hyes hno, ?_⟩
    · exact ⟨fun _ => hyes, fun _ => hctl⟩
    · rw [hctl]
      exact ⟨fun hc => Control.noConfusion hc, fun hno => absurd hyes hno⟩
    · exact ⟨fun _ => hyes, fun _ => ⟨_, _, (htab _ _).mpr ⟨h, rfl, rfl⟩⟩⟩
    · exact ⟨fun hmem => absurd (hinfo.mp hmem) h, fun hno => absurd hyes hno⟩
    · intro hall
      obtain ⟨r, hr, he, -⟩ := hyes
      exact absurd he (hall r hr)

/-- Claim C9: when the cluster returns a list of pods, `getHostNetworkPods`
sets `hostpods[ns]`, for every namespace `ns`, to the pods of the list of
namespace `ns` that are `hostNetwork` and `Running`, in list order; `ns` is a
key exactly when there is such a pod, and no bucket is empty. -/
theorem getHostNetworkPods_groups (c : Cluster) (k : K8s) (items : List Pod)
    (hlist : c.Pods = Except.ok items) :
    ∃ hostpods : GoMap (List Pod),
      (getHostNetworkPods c k).2 = (some { hostpods := hostpods }, none) ∧
      (∀ ns, hostpods.index ns = items.filter fun pod =>
        decide (pod.Namespace = ns ∧ pod.Spec.HostNetwork = true ∧
          pod.Status.Phase = PodRunning)) ∧
      (∀ ns, ns ∈ hostpods.keys ↔ ∃ pod ∈ items,
        pod.Namespace = ns ∧ pod.Spec.HostNetwork = true ∧
          pod.Status.Phase = PodRunning) ∧
      hostpods.keys.Nodup ∧
      (∀ entry ∈ hostpods, entry.2 ≠ [] ∧ hostpods.index entry.1 = entry.2) := by
  have hnodup : (items.foldl addHostNetworkPod []).keys.Nodup :=
    foldl_addHostNetworkPod_nodup items [] (by simp [GoMap.keys])
  refine ⟨items.foldl addHostNetworkPod [], ?_, ?_, ?_, hnodup, ?_⟩
  · simp [getHostNetworkPods, hlist]
  · intro ns
    rw [foldl_addHostNetworkPod_index]
    simp [GoMap.index, keptIn]
  · intro ns
    rw [foldl_addHostNetworkPod_keys]
    simp [GoMap.keys, keptIn]
  · intro entry hentry
    exact ⟨foldl_addHostNetworkPod_nonempty items [] (by simp) entry hentry,
      GoMap.index_of_mem _ _ _ hnodup hentry⟩

/-- Claim C9 on a cluster of three pods: the map has the single key
`kube-system`, whose bucket holds the one running host-network pod. -/
theorem getHostNetworkPods_groups_witness :
    (∃ items, smallCluster.Pods = Except.ok items) ∧
    ∃ hostpods : GoMap (List Pod),
      (getHostNetworkPods smallCluster { hostpods := [] }).2 =
        (some { hostpods := hostpods }, none) ∧
      hostpods.keys = ["kube-system"] ∧
      (hostpods.index "kube-system").map (fun pod => pod.Name) = ["kube-proxy"] ∧
      hostpods.index "default" = [] := by
  refine ⟨⟨_, rfl⟩, ?_⟩
  obtain ⟨hostpods, hget, hindex, -, -, -⟩ :=
    getHostNetworkPods_groups smallCluster { hostpods := [] } _ rfl
  refine ⟨hostpods, hget, ?_, ?_, ?_⟩
  · have h := congrArg (fun p => p.1.map K8s.hostpods) hget
    simp only [Option.map_some'] at h
    rw [← Option.some.inj h]
    decide
  · rw [hindex]
    decide
  · rw [hindex]
    decide

/-- Claim C10: two sequences of outcomes that are permutations of each other
give reports with the same namespace keys and, for every namespace, buckets
that are permutations of each other; `CheckPods` then leaves by the same
branch, the exit with status 0 or the render. -/
theorem report_perm (rs rs' : List result) (h : rs.Perm rs') :
    (∀ ns, ns ∈ (report rs).keys ↔ ns ∈ (report rs').keys) ∧
    (∀ ns, ((report rs).index ns).Perm ((report rs').index ns)) ∧
    ((report rs).len = 0 ↔ (report rs').len = 0) ∧
    (CheckPods rs).control = (CheckPods rs').control := by
  have hkeys : ∀ ns, ns ∈ (report rs).keys ↔ ns ∈ (report rs').keys := by
    intro ns
    rw [report_keys, report_keys]
    constructor
    · rintro ⟨r, hr, ha⟩
      exact ⟨r, h.mem_iff.mp hr, ha⟩
    · rintro ⟨r, hr, ha⟩
      exact ⟨r, h.mem_iff.mpr hr, ha⟩
  have hlen : (report rs).len = 0 ↔ (report rs').len = 0 := by
    rw [GoMap.len_eq_zero_iff, GoMap.len_eq_zero_iff]
    exact forall_congr' fun ns => not_congr (hkeys ns)
  refine ⟨hkeys, ?_, hlen, ?_⟩
  · intro ns
    rw [report_index, report_index]
    exact (h.filter _).map _
  · rw [CheckPods_control, CheckPods_control]
    by_cases h0 : (report rs).len = 0
    · rw [if_pos h0, if_pos (hlen.mp h0)]
    · rw [if_neg h0, if_neg (fun h1 => h0 (hlen.mpr h1))]

/-- Claim C10 on the three targets of `ns-a` and their reversal: the bucket
of `ns-a` holds `target-1` and `target-3` in one order or the other. -/
theorem report_perm_witness :
    threeTargets.Perm threeTargets.reverse ∧
    (report threeTargets).index "ns-a" = ["target-1", "target-3"] ∧
    (report threeTargets.reverse).index "ns-a" = ["target-3", "target-1"] ∧
    ((report threeTargets).index "ns-a").Perm
      ((report threeTargets.reverse).index "ns-a") :=
  ⟨(List.reverse_perm threeTargets).symm, by decide, by decide,
    (report_perm threeTargets threeTargets.reverse
      (List.reverse_perm threeTargets).symm).2.1 "ns-a"⟩

end FindOldDnsPod
